import Mathlib

/-!
# shell.c: tokenizer, background marker, redirection / pipe builder, launcher, SIGALRM handler

A shallow embedding of `src/shell.c`.

* A C string is the list of characters held by its buffer before the first NUL.
* `char **arguments` is a list of slots, `none` standing for `NULL`; the argument
  vector a callee sees is the run of strings before the first `NULL`.
* A function that makes system calls is a function of the values those calls
  return in the process that runs it (`Sys`); it yields the calls made, in program
  order (`Event`), the array as the process left it and how control left the function.
  `fork` returns in two processes: the child is the same function run with return
  value `0`, the parent is the function run with the child's pid.
-/

namespace Shell

/-! ## Constants -/

/-- Line 10: `#define MAX_COMMAND_LINE_LEN 1024`. -/
def MAX_COMMAND_LINE_LEN : Nat := 1024

/-- Line 11: `#define MAX_COMMAND_LINE_ARGS 128`. -/
def MAX_COMMAND_LINE_ARGS : Nat := 128

/-! ## Tokenizer (lines 33-53) -/

/-- Membership in the delimiter string `" \t\r\n"` passed to `strtok`. -/
def delim (c : Char) : Bool :=
  c == ' ' || c == '\t' || c == '\r' || c == '\n'

/-- The string a `char *` designates: the characters of the buffer before the first NUL. -/
def c_str (buf : List Char) : List Char :=
  buf.takeWhile (fun c => c != Char.ofNat 0)

/-- One call of the C library's `strtok` with delimiters `" \t\r\n"`, as a function of the
scan position (the string passed on the first call, the saved position afterwards).
`none` is the `NULL` return; otherwise the token and the new saved position: skip the leading
delimiters (`strspn`), stop if the string ended, take characters up to the next delimiter
(`strcspn`), and resume after that delimiter, or at the end of the string when there is none. -/
def strtok (s : List Char) : Option (List Char × List Char) :=
  let s1 := s.dropWhile delim
  if s1 = [] then none
  else
    let token := s1.takeWhile (fun c => !delim c)
    let save := (s1.dropWhile (fun c => !delim c)).tail
    some (token, save)

/-- The loop of `tokenize_command` (lines 42-51) as the sequence of stores into `arguments`,
in program order: `(i, some t)` is `arguments[i] = strdup(t)`, `(i, none)` is
`arguments[i] = NULL`. The first argument bounds the number of iterations. -/
def tokenize_loop : Nat → Option (List Char × List Char) → Nat → List (Nat × Option String)
  | _, none, i => [(i, none)]
  | 0, some _, _ => []
  | fuel + 1, some (token, save), i =>
      (i, some (String.mk token)) :: tokenize_loop fuel (strtok save) (i + 1)

/-- Every store `tokenize_command` makes into the array it allocated, for a line buffer.
Each `strtok` call that returns a token consumes at least one character, so the line's
length bounds the number of iterations (`tokenize_stores_eq`). Allocation (`malloc`,
`strdup`) is taken to succeed. -/
def tokenize_stores (command_line : List Char) : List (Nat × Option String) :=
  tokenize_loop (c_str command_line).length (strtok (c_str command_line)) 0

/-- The line `"a a ... a"` with `n` one-letter tokens separated by single spaces. -/
def many_tokens : Nat → List Char
  | 0 => []
  | n + 1 => 'a' :: ' ' :: many_tokens n

/-! ## System interface -/

/-- `STDIN_FILENO` of `<unistd.h>`. -/
def STDIN_FILENO : Int := 0

/-- `STDOUT_FILENO` of `<unistd.h>`. -/
def STDOUT_FILENO : Int := 1

/-- `EXIT_FAILURE` of `<stdlib.h>`. -/
def EXIT_FAILURE : Nat := 1

/-- `SIGKILL` of `<signal.h>`. -/
def SIGKILL : Nat := 9

/-- `SA_RESTART` of `<signal.h>` (Linux value). -/
def SA_RESTART : Nat := 0x10000000

/-- Access flags of `open` that the program uses, kept symbolic. -/
inductive OpenFlag
  | O_RDONLY
  | O_WRONLY
  | O_CREAT
  | O_TRUNC
  deriving DecidableEq, Repr

/-- One system or library call made by a process, with the values it was given and, where the
program uses it, the value it returned. -/
inductive Event
  /-- The call `fork()` returning `ret` in this process. -/
  | fork (ret : Int)
  /-- The call `open(path, flags[, mode])` returning `ret`. -/
  | openFile (path : String) (flags : List OpenFlag) (mode : Option Nat) (ret : Int)
  /-- The call `dup2(oldfd, newfd)`. -/
  | dup2 (oldfd newfd : Int)
  /-- The call `close(fd)`. -/
  | close (fd : Int)
  /-- The call `pipe(pipefd)` leaving `pipefd[0] = rd`, `pipefd[1] = wr`. -/
  | pipe (rd wr : Int)
  /-- The call `execvp(file, argv)`, `argv` being the strings before the first `NULL`. -/
  | execvp (file : String) (argv : List String)
  /-- The call `perror(msg)`. -/
  | perror (msg : String)
  /-- A `printf` whose formatted text is `text`. -/
  | printf (text : String)
  /-- The call `exit(status)`. -/
  | exit (status : Nat)
  /-- The call `waitpid(pid, p, 0)`; `stored` is the value written through `p`, `none` when
  `p` is `NULL` or the call stored nothing. -/
  | waitpid (pid : Int) (stored : Option Nat)
  /-- The call `alarm(seconds)`. -/
  | alarm (seconds : Nat)
  /-- The assignment `foreground_pid = v`. -/
  | set_foreground_pid (v : Int)
  /-- The call `kill(pid, sig)`. -/
  | kill (pid : Int) (sig : Nat)
  deriving DecidableEq, Repr

/-- How control leaves a function in one process. -/
inductive Ctl
  /-- The function returned to its caller. -/
  | returned
  /-- The call `execvp` succeeded: the process now runs the new program. -/
  | replaced
  /-- The process called `exit`. -/
  | exited (status : Nat)
  /-- A null pointer was passed where C requires a string: undefined behaviour. -/
  | undefined
  deriving DecidableEq, Repr

/-- What the system calls return in one process that runs `launch_process`. -/
structure Sys where
  /-- Line 175: value of `fork()`. -/
  fork_ret : Int
  /-- Lines 116 and 129: value of `open(...)`. -/
  open_ret : Int
  /-- Line 142: `pipefd[0]` and `pipefd[1]` after `pipe(pipefd)`. -/
  pipefd : Int × Int
  /-- Line 144: value of the first `fork()` of the pipe branch. -/
  pid1 : Int
  /-- Line 152: value of the second `fork()` of the pipe branch. -/
  pid2 : Int
  /-- Whether `execvp` fails, that is, returns at all. -/
  execvp_fails : Bool
  /-- Line 197: the status `waitpid` stores in `status`; `none` when it returns `-1` and
  stores nothing. -/
  waitpid_status : Option Nat
  /-- Line 196: the indeterminate value the uninitialised local `status` holds. -/
  status_indeterminate : Nat

/-- The array behind `char **arguments`: one entry per slot, `none` for `NULL`. -/
abbrev Arguments := List (Option String)

/-- The array `tokenize_command` returns for the tokens `ts`: the strings, then `NULL`. -/
def to_arguments (ts : List String) : Arguments :=
  ts.map some ++ [none]

/-- The expression `arguments[i]`. The program reads a slot only at or before the first
`NULL` or right after an operator token, hence inside a `NULL`-terminated array. -/
def slot (arguments : Arguments) (i : Nat) : Option String :=
  (arguments.get? i).join

/-- The argument vector a callee given the pointer `arguments` sees: the strings before the
first `NULL`. -/
def argv : Arguments → List String
  | some s :: rest => s :: argv rest
  | _ => []

/-- What one process did while running a function. -/
structure Run where
  /-- The calls made, in program order. -/
  events : List Event
  /-- The array `arguments` as the process left it. -/
  arguments : Arguments
  /-- How control left the function. -/
  ctl : Ctl
  deriving DecidableEq, Repr

/-! ## Redirection and piping (lines 109-169) -/

/-- The loop `for (int i = 0; arguments[i] != NULL; i++)` of
`handle_redirection_and_piping`, entered at index `i`; the last argument is the part of the
array from slot `i` on (the array is changed only on the iterations that leave the loop). -/
def hrp_loop (sys : Sys) (arguments : Arguments) : Nat → Arguments → Run
  | _, [] => ⟨[], arguments, .undefined⟩
  | _, none :: _ => ⟨[], arguments, .returned⟩
  | i, some tok :: rest =>
    if tok = ">" then
      let arguments1 := arguments.set i none
      match slot arguments1 (i + 1) with
      | none => ⟨[], arguments1, .undefined⟩
      | some path =>
        let fd := sys.open_ret
        let opened := Event.openFile path [.O_WRONLY, .O_CREAT, .O_TRUNC] (some 0o644) fd
        if fd = -1 then
          ⟨[opened, .perror "open failed", .exit 1], arguments1, .exited 1⟩
        else
          ⟨[opened, .dup2 fd STDOUT_FILENO, .close fd], arguments1, .returned⟩
    else if tok = "<" then
      let arguments1 := arguments.set i none
      match slot arguments1 (i + 1) with
      | none => ⟨[], arguments1, .undefined⟩
      | some path =>
        let fd := sys.open_ret
        let opened := Event.openFile path [.O_RDONLY] none fd
        if fd = -1 then
          ⟨[opened, .perror "open failed", .exit 1], arguments1, .exited 1⟩
        else
          ⟨[opened, .dup2 fd STDIN_FILENO, .close fd], arguments1, .returned⟩
    else if tok = "|" then
      let pipefd := sys.pipefd
      let pid1 := sys.pid1
      if pid1 = 0 then
        match slot arguments 0 with
        | none => ⟨[.pipe pipefd.1 pipefd.2, .fork pid1, .dup2 pipefd.2 STDOUT_FILENO,
            .close pipefd.1], arguments, .undefined⟩
        | some file =>
          let called := [Event.pipe pipefd.1 pipefd.2, .fork pid1, .dup2 pipefd.2 STDOUT_FILENO,
            .close pipefd.1, .execvp file (argv arguments)]
          if sys.execvp_fails then
            ⟨called ++ [.perror "exec failed", .exit EXIT_FAILURE], arguments,
              .exited EXIT_FAILURE⟩
          else ⟨called, arguments, .replaced⟩
      else
        let pid2 := sys.pid2
        if pid2 = 0 then
          match slot arguments (i + 1) with
          | none => ⟨[.pipe pipefd.1 pipefd.2, .fork pid1, .fork pid2,
              .dup2 pipefd.1 STDIN_FILENO, .close pipefd.2], arguments, .undefined⟩
          | some file =>
            let called := [Event.pipe pipefd.1 pipefd.2, .fork pid1, .fork pid2,
              .dup2 pipefd.1 STDIN_FILENO, .close pipefd.2,
              .execvp file (argv (arguments.drop (i + 1)))]
            if sys.execvp_fails then
              ⟨called ++ [.perror "exec failed", .exit EXIT_FAILURE], arguments,
                .exited EXIT_FAILURE⟩
            else ⟨called, arguments, .replaced⟩
        else
          ⟨[.pipe pipefd.1 pipefd.2, .fork pid1, .fork pid2, .close pipefd.1, .close pipefd.2,
            .waitpid pid1 none, .waitpid pid2 none], arguments, .returned⟩
    else hrp_loop sys arguments (i + 1) rest

/-- The function `handle_redirection_and_piping(arguments)`. -/
def handle_redirection_and_piping (sys : Sys) (arguments : Arguments) : Run :=
  hrp_loop sys arguments 0 arguments

/-! ## Launcher (lines 172-214) -/

/-- `WTERMSIG(status)` of `<sys/wait.h>`: `status & 0x7f`. -/
def WTERMSIG (status : Nat) : Nat := status % 128

/-- `WIFEXITED(status)` of `<sys/wait.h>`: `WTERMSIG(status) == 0`. -/
def WIFEXITED (status : Nat) : Bool := WTERMSIG status == 0

/-- `WEXITSTATUS(status)` of `<sys/wait.h>`: `(status & 0xff00) >> 8`. -/
def WEXITSTATUS (status : Nat) : Nat := (status / 256) % 256

/-- `WIFSIGNALED(status)` of `<sys/wait.h>`:
`((signed char) ((status & 0x7f) + 1) >> 1) > 0`. -/
def WIFSIGNALED (status : Nat) : Bool :=
  let v : Int := ((status % 128 + 1 : Nat) : Int)
  let sc : Int := if v < 128 then v else v - 256
  decide (0 < sc / 2)

/-- The status `waitpid` stores for a child that exited with code `code`. -/
def status_exited (code : Nat) : Nat := (code % 256) * 256

/-- The status `waitpid` stores for a child killed by signal `sig`. -/
def status_signaled (sig : Nat) : Nat := sig % 128

/-- Lines 203-208: the report printed from the value of `status`. -/
def report (status : Nat) : List Event :=
  if WIFEXITED status then
    [.printf ("Process exited with status " ++ toString (WEXITSTATUS status) ++ "\n")]
  else if WIFSIGNALED status then
    [.printf ("Process was killed by signal " ++ toString (WTERMSIG status) ++ "\n")]
  else []

/-- The function `launch_process(arguments, background)` in one process. -/
def launch_process (sys : Sys) (arguments : Arguments) (background : Bool) : Run :=
  let pid := sys.fork_ret
  if pid = -1 then
    ⟨[.fork pid, .perror "fork failed"], arguments, .returned⟩
  else if pid = 0 then
    let r := handle_redirection_and_piping sys arguments
    match r.ctl with
    | .returned =>
      match slot r.arguments 0 with
      | none => ⟨.fork pid :: r.events, r.arguments, .undefined⟩
      | some file =>
        let called := .fork pid :: r.events ++
          [.printf ("Executing: " ++ file ++ "\n"), .execvp file (argv r.arguments)]
        if sys.execvp_fails then
          ⟨called ++ [.perror "exec failed", .exit EXIT_FAILURE], r.arguments,
            .exited EXIT_FAILURE⟩
        else ⟨called, r.arguments, .replaced⟩
    | c => ⟨.fork pid :: r.events, r.arguments, c⟩
  else
    if !background then
      let status := sys.waitpid_status.getD sys.status_indeterminate
      ⟨[.fork pid, .set_foreground_pid pid, .alarm 10, .waitpid pid sys.waitpid_status,
        .alarm 0, .set_foreground_pid (-1)] ++ report status, arguments, .returned⟩
    else
      ⟨[.fork pid, .set_foreground_pid pid,
        .printf ("[Process ID: " ++ toString pid ++ "]\n"), .set_foreground_pid (-1)],
        arguments, .returned⟩

/-! ## Signal handling (lines 16-30, 224-230) -/

/-- The function `sigalrm_handler`, run when `foreground_pid` holds the given value. -/
def sigalrm_handler (foreground_pid : Int) : List Event :=
  if foreground_pid > 0 then
    [.printf ("\nProcess timed out. Terminating process " ++ toString foreground_pid ++ ".\n"),
      .kill foreground_pid SIGKILL]
  else []

/-- Line 16: `foreground_pid` is a global without initialiser, hence `0` at start. -/
def foreground_pid_initial : Int := 0

/-- Line 227: `sa_alrm.sa_flags = 0`. -/
def sa_alrm_flags : Nat := 0

/-- The process state the launcher and the handler share: the value of `foreground_pid` and
whether a countdown set by `alarm` is pending. -/
structure Registry where
  /-- The global `foreground_pid`. -/
  foreground_pid : Int
  /-- Whether an `alarm` is pending. -/
  armed : Bool
  deriving DecidableEq, Repr

/-- Effect of one call on the shared state: `foreground_pid = v` stores `v`, `alarm(n)` arms
the countdown for `n > 0` and cancels it for `n = 0`. -/
def Registry.step (r : Registry) : Event → Registry
  | .set_foreground_pid v => { r with foreground_pid := v }
  | .alarm n => { r with armed := decide (0 < n) }
  | _ => r

/-- The shared state after a sequence of calls. -/
def Registry.run (r : Registry) (events : List Event) : Registry :=
  events.foldl Registry.step r

/-! ## Main loop, one line (lines 250-286) -/

/-- Lines 254-258: `while (arguments[arg_count] != NULL) arg_count++`. -/
def count_arguments : Arguments → Nat
  | some _ :: rest => count_arguments rest + 1
  | _ => 0

/-- Lines 252-265: the background flag and the array after the check for a trailing `&`. -/
def mark_background (arguments : Arguments) : Arguments × Bool :=
  let arg_count := count_arguments arguments
  if arg_count > 0 ∧ slot arguments (arg_count - 1) = some "&" then
    (arguments.set (arg_count - 1) none, true)
  else (arguments, false)

/-- The branch of lines 268-286 taken for a line, with what it is given. -/
inductive Dispatch
  /-- Line 268: no token, next prompt. -/
  | skip
  /-- Line 272: `handle_cd(arguments)`. -/
  | handle_cd (arguments : Arguments)
  /-- Line 274: `handle_pwd()`. -/
  | handle_pwd
  /-- Line 276: `handle_echo(arguments)`. -/
  | handle_echo (arguments : Arguments)
  /-- Line 277: leave the loop. -/
  | exit
  /-- Line 281: `handle_env()`. -/
  | handle_env
  /-- Line 283: `handle_setenv(arguments)`. -/
  | handle_setenv (arguments : Arguments)
  /-- Line 285: `launch_process(arguments, background)`. -/
  | launch_process (arguments : Arguments) (background : Bool)
  deriving DecidableEq, Repr

/-- Lines 252-286 for the array returned by the tokenizer. -/
def dispatch (arguments0 : Arguments) : Dispatch :=
  let marked := mark_background arguments0
  let arguments := marked.1
  let background := marked.2
  match slot arguments 0 with
  | none => .skip
  | some cmd =>
    if cmd = "cd" then .handle_cd arguments
    else if cmd = "pwd" then .handle_pwd
    else if cmd = "echo" then .handle_echo arguments
    else if cmd = "exit" then .exit
    else if cmd = "env" then .handle_env
    else if cmd = "setenv" then .handle_setenv arguments
    else .launch_process arguments background

/-- The stores the loop makes when the tokens are `ts` and the first free slot is `i`. -/
def stores_of : List (List Char) → Nat → List (Nat × Option String)
  | [], i => [(i, none)]
  | t :: ts, i => (i, some (String.mk t)) :: stores_of ts (i + 1)

/-- The operator tokens the scan of `handle_redirection_and_piping` compares with
(lines 114, 127, 140). -/
def is_operator (t : String) : Bool :=
  t == ">" || t == "<" || t == "|"

/-! ## Processes used as examples -/

/-- The child of `launch_process`: `fork` returned `0`, `open` yields descriptor `3`, `execvp`
succeeds; in the pipe branch this process is the left child. -/
def sys_child : Sys :=
  { fork_ret := 0, open_ret := 3, pipefd := (3, 4), pid1 := 0, pid2 := 0,
    execvp_fails := false, waitpid_status := none, status_indeterminate := 0 }

/-- The child of `launch_process` when `open` fails. -/
def sys_open_fails : Sys := { sys_child with open_ret := -1 }

/-- The right child of the pipe branch: the first `fork` returned a pid, the second `0`. -/
def sys_right_child : Sys := { sys_child with pid1 := 101, pid2 := 0 }

/-- The process that forks both children of the pipe branch and waits for them. -/
def sys_pipe_parent : Sys := { sys_child with pid1 := 101, pid2 := 102 }

/-- The shell itself, parent of child `100`, whose `waitpid` stores `status`. -/
def sys_shell (status : Nat) : Sys :=
  { sys_child with fork_ret := 100, waitpid_status := some status }

/-- What a blocking `waitpid` stores when a handler installed by `sigaction` with flags
`sa_flags` runs during the call (POSIX): with `SA_RESTART` the call is restarted and stores
the status `status` the child ends with; without it the call fails with `EINTR` and stores
nothing. -/
def waitpid_interrupted (sa_flags : Nat) (status : Nat) : Option Nat :=
  if sa_flags &&& SA_RESTART ≠ 0 then some status else none

/-- The shell for a foreground child `100` still running when the countdown expires: the
handler installed at lines 224-230 runs during `waitpid`, the child dies of `SIGKILL`, and
the local `status` held `indeterminate` before the call. -/
def sys_timeout (indeterminate : Nat) : Sys :=
  { sys_child with
    fork_ret := 100
    waitpid_status := waitpid_interrupted sa_alrm_flags (status_signaled SIGKILL)
    status_indeterminate := indeterminate }

/-! ## Tokenizer: `strtok` against the maximal runs -/

theorem stores_of_all (ts : List (List Char)) (i : Nat) :
    (stores_of ts i).all (fun s => decide (s.1 < MAX_COMMAND_LINE_ARGS)) = true ↔
      i + ts.length < MAX_COMMAND_LINE_ARGS := by
  induction ts generalizing i with
  | nil => simp [stores_of]
  | cons t ts ih =>
    simp only [stores_of, List.all_cons, Bool.and_eq_true, decide_eq_true_eq, ih,
      List.length_cons]
    omega

theorem mem_stores_of_last (ts : List (List Char)) (i : Nat) :
    (i + ts.length, none) ∈ stores_of ts i := by
  induction ts generalizing i with
  | nil => simp [stores_of]
  | cons t ts ih =>
    simp only [stores_of, List.length_cons, List.mem_cons]
    right
    have := ih (i + 1)
    rwa [show i + 1 + ts.length = i + (ts.length + 1) by omega] at this

theorem is_operator_false {t : String} (h : is_operator t = false) :
    t ≠ ">" ∧ t ≠ "<" ∧ t ≠ "|" := by
  simp only [is_operator, Bool.or_eq_false_iff, beq_eq_false_iff_ne] at h
  exact ⟨h.1.1, h.1.2, h.2⟩

theorem to_arguments_append (pre : List String) (R : List String) :
    to_arguments (pre ++ R) = pre.map some ++ to_arguments R := by
  simp [to_arguments]

theorem to_arguments_cons (t : String) (R : List String) :
    to_arguments (t :: R) = some t :: to_arguments R := by
  simp [to_arguments]

theorem set_after_strings (pre : List String) (x : Option String) (R : Arguments) :
    (pre.map some ++ x :: R).set pre.length none = pre.map some ++ none :: R := by
  induction pre with
  | nil => rfl
  | cons t pre ih => simp [List.set, ih]

theorem slot_after_strings (pre : List String) (R : Arguments) (k : Nat) :
    slot (pre.map some ++ R) (pre.length + k) = slot R k := by
  induction pre with
  | nil => simp
  | cons t pre ih =>
    have : (t :: pre).length + k = (pre.length + k) + 1 := by simp only [List.length_cons]; omega
    rw [this]
    simpa [slot] using ih

theorem slot_zero_cons (x : Option String) (R : Arguments) : slot (x :: R) 0 = x := by
  simp [slot]

theorem slot_succ_cons (x : Option String) (R : Arguments) (k : Nat) :
    slot (x :: R) (k + 1) = slot R k := by
  simp [slot]

theorem argv_strings (pre : List String) (R : Arguments) :
    argv (pre.map some ++ none :: R) = pre := by
  induction pre with
  | nil => rfl
  | cons t pre ih => simp [argv, ih]

theorem argv_to_arguments (ts : List String) : argv (to_arguments ts) = ts := by
  have := argv_strings ts []
  simpa [to_arguments] using this

theorem drop_after_strings (pre : List String) (x : Option String) (R : Arguments) :
    (pre.map some ++ x :: R).drop (pre.length + 1) = R := by
  induction pre with
  | nil => rfl
  | cons t pre ih => simpa using ih

/-- The scan passes over tokens that are not operators. -/
theorem hrp_loop_skip (sys : Sys) (arguments : Arguments) (pre : List String) (R : Arguments)
    (hpre : ∀ t ∈ pre, is_operator t = false) (i : Nat) :
    hrp_loop sys arguments i (pre.map some ++ R) = hrp_loop sys arguments (i + pre.length) R := by
  induction pre generalizing i with
  | nil => rfl
  | cons t pre ih =>
    obtain ⟨h1, h2, h3⟩ := is_operator_false (hpre t (List.mem_cons_self t pre))
    have hrest : ∀ u ∈ pre, is_operator u = false :=
      fun u hu => hpre u (List.mem_cons_of_mem t hu)
    have hstep : hrp_loop sys arguments i (some t :: (pre.map some ++ R)) =
        hrp_loop sys arguments (i + 1) (pre.map some ++ R) := by
      simp only [hrp_loop, h1, h2, h3, if_false]
    rw [List.map_cons, List.cons_append, hstep, ih hrest (i + 1)]
    congr 1
    simp only [List.length_cons]; omega

/-- The scan reaches the leftmost operator token with the array unchanged. -/
theorem hrp_at_operator (sys : Sys) (pre post : List String) (op : String)
    (hpre : ∀ t ∈ pre, is_operator t = false) :
    handle_redirection_and_piping sys (to_arguments (pre ++ op :: post)) =
      hrp_loop sys (pre.map some ++ some op :: to_arguments post) pre.length
        (some op :: to_arguments post) := by
  unfold handle_redirection_and_piping
  rw [to_arguments_append, to_arguments_cons]
  have := hrp_loop_skip sys (pre.map some ++ some op :: to_arguments post) pre
    (some op :: to_arguments post) hpre 0
  simpa using this

/-- Without operator token the scan returns with the array unchanged and no call made. -/
theorem hrp_no_operator (sys : Sys) (ts : List String)
    (hts : ∀ t ∈ ts, is_operator t = false) :
    handle_redirection_and_piping sys (to_arguments ts) = ⟨[], to_arguments ts, .returned⟩ := by
  unfold handle_redirection_and_piping
  have := hrp_loop_skip sys (to_arguments ts) ts [none] hts 0
  rw [show to_arguments ts = ts.map some ++ [none] from rfl] at this ⊢
  rw [this]
  rfl

/-- The scan at `>` followed by a path. -/
theorem hrp_output (sys : Sys) (pre post : List String) (path : String)
    (hpre : ∀ t ∈ pre, is_operator t = false) :
    handle_redirection_and_piping sys (to_arguments (pre ++ ">" :: path :: post)) =
      if sys.open_ret = -1 then
        ⟨[.openFile path [.O_WRONLY, .O_CREAT, .O_TRUNC] (some 0o644) sys.open_ret,
          .perror "open failed", .exit 1],
          pre.map some ++ none :: to_arguments (path :: post), .exited 1⟩
      else
        ⟨[.openFile path [.O_WRONLY, .O_CREAT, .O_TRUNC] (some 0o644) sys.open_ret,
          .dup2 sys.open_ret STDOUT_FILENO, .close sys.open_ret],
          pre.map some ++ none :: to_arguments (path :: post), .returned⟩ := by
  rw [hrp_at_operator sys pre (path :: post) ">" hpre]
  simp only [hrp_loop, if_true, set_after_strings]
  rw [show pre.length + 1 = pre.length + 1 from rfl, slot_after_strings pre _ 1]
  simp only [slot_succ_cons, to_arguments_cons, slot_zero_cons]

/-- The scan at `<` followed by a path. -/
theorem hrp_input (sys : Sys) (pre post : List String) (path : String)
    (hpre : ∀ t ∈ pre, is_operator t = false) :
    handle_redirection_and_piping sys (to_arguments (pre ++ "<" :: path :: post)) =
      if sys.open_ret = -1 then
        ⟨[.openFile path [.O_RDONLY] none sys.open_ret,
          .perror "open failed", .exit 1],
          pre.map some ++ none :: to_arguments (path :: post), .exited 1⟩
      else
        ⟨[.openFile path [.O_RDONLY] none sys.open_ret,
          .dup2 sys.open_ret STDIN_FILENO, .close sys.open_ret],
          pre.map some ++ none :: to_arguments (path :: post), .returned⟩ := by
  rw [hrp_at_operator sys pre (path :: post) "<" hpre]
  have hne : ("<" : String) ≠ ">" := by decide
  simp only [hrp_loop, hne, if_false, if_true, set_after_strings]
  rw [slot_after_strings pre _ 1]
  simp only [slot_succ_cons, to_arguments_cons, slot_zero_cons]

/-- The scan at `|`: the three processes that leave the pipe branch. -/
theorem hrp_pipe (sys : Sys) (pre post : List String)
    (hpre : ∀ t ∈ pre, is_operator t = false) :
    handle_redirection_and_piping sys (to_arguments (pre ++ "|" :: post)) =
      hrp_loop sys (to_arguments (pre ++ "|" :: post)) pre.length
        (some "|" :: to_arguments post) := by
  rw [hrp_at_operator sys pre post "|" hpre, to_arguments_append, to_arguments_cons]

theorem split_at_index (ts : List String) (i : Nat) (op : String) (h : ts[i]? = some op) :
    ts = ts.take i ++ op :: ts.drop (i + 1) ∧ (ts.take i).length = i := by
  obtain ⟨hlt, hget⟩ := List.getElem?_eq_some_iff.1 h
  refine ⟨?_, by simp [List.length_take]; omega⟩
  rw [← hget, List.getElem_cons_drop, List.take_append_drop]

/-- The child of `launch_process` for a vector whose leftmost operator is `>`, followed by a
path: `open` fails, or nothing stands before the operator, or the command before it is run. -/
theorem launch_child_output (sys : Sys) (path : String) (pre post : List String)
    (background : Bool) (hfork : sys.fork_ret = 0)
    (hpre : ∀ t ∈ pre, is_operator t = false) :
    launch_process sys (to_arguments (pre ++ ">" :: path :: post)) background =
      if sys.open_ret = -1 then
        ⟨[.fork 0, .openFile path [.O_WRONLY, .O_CREAT, .O_TRUNC] (some 0o644) sys.open_ret,
            .perror "open failed", .exit 1],
          pre.map some ++ none :: to_arguments (path :: post), .exited 1⟩
      else
        match pre with
        | [] =>
          ⟨[.fork 0, .openFile path [.O_WRONLY, .O_CREAT, .O_TRUNC] (some 0o644) sys.open_ret,
              .dup2 sys.open_ret STDOUT_FILENO, .close sys.open_ret],
            pre.map some ++ none :: to_arguments (path :: post), .undefined⟩
        | file :: _ =>
          ⟨[.fork 0, .openFile path [.O_WRONLY, .O_CREAT, .O_TRUNC] (some 0o644) sys.open_ret,
              .dup2 sys.open_ret STDOUT_FILENO, .close sys.open_ret,
              .printf ("Executing: " ++ file ++ "\n"), .execvp file pre] ++
              (if sys.execvp_fails then [.perror "exec failed", .exit EXIT_FAILURE] else []),
            pre.map some ++ none :: to_arguments (path :: post),
            if sys.execvp_fails then .exited EXIT_FAILURE else .replaced⟩ := by
  have h1 : ((0 : Int) = -1) = False := by simp
  unfold launch_process
  rw [hrp_output sys pre post path hpre]
  simp only [hfork, h1, if_false, if_true]
  by_cases hopen : sys.open_ret = -1
  · simp only [hopen, if_true]
  · simp only [hopen, if_false, argv_strings]
    cases pre with
    | nil => simp [slot_zero_cons]
    | cons file pre2 =>
      simp only [List.map_cons, List.cons_append, slot_zero_cons]
      cases sys.execvp_fails <;> simp

/-- The child of `launch_process` for a vector whose leftmost operator is `<`, followed by a
path: `open` fails, or nothing stands before the operator, or the command before it is run. -/
theorem launch_child_input (sys : Sys) (path : String) (pre post : List String)
    (background : Bool) (hfork : sys.fork_ret = 0)
    (hpre : ∀ t ∈ pre, is_operator t = false) :
    launch_process sys (to_arguments (pre ++ "<" :: path :: post)) background =
      if sys.open_ret = -1 then
        ⟨[.fork 0, .openFile path [.O_RDONLY] none sys.open_ret,
            .perror "open failed", .exit 1],
          pre.map some ++ none :: to_arguments (path :: post), .exited 1⟩
      else
        match pre with
        | [] =>
          ⟨[.fork 0, .openFile path [.O_RDONLY] none sys.open_ret,
              .dup2 sys.open_ret STDIN_FILENO, .close sys.open_ret],
            pre.map some ++ none :: to_arguments (path :: post), .undefined⟩
        | file :: _ =>
          ⟨[.fork 0, .openFile path [.O_RDONLY] none sys.open_ret,
              .dup2 sys.open_ret STDIN_FILENO, .close sys.open_ret,
              .printf ("Executing: " ++ file ++ "\n"), .execvp file pre] ++
              (if sys.execvp_fails then [.perror "exec failed", .exit EXIT_FAILURE] else []),
            pre.map some ++ none :: to_arguments (path :: post),
            if sys.execvp_fails then .exited EXIT_FAILURE else .replaced⟩ := by
  have h1 : ((0 : Int) = -1) = False := by simp
  unfold launch_process
  rw [hrp_input sys pre post path hpre]
  simp only [hfork, h1, if_false, if_true]
  by_cases hopen : sys.open_ret = -1
  · simp only [hopen, if_true]
  · simp only [hopen, if_false, argv_strings]
    cases pre with
    | nil => simp [slot_zero_cons]
    | cons file pre2 =>
      simp only [List.map_cons, List.cons_append, slot_zero_cons]
      cases sys.execvp_fails <;> simp

/-- In the parent (`fork` returned neither `-1` nor `0`) `launch_process` makes these calls. -/
theorem launch_parent (sys : Sys) (arguments : Arguments) (background : Bool)
    (h1 : sys.fork_ret ≠ -1) (h0 : sys.fork_ret ≠ 0) :
    launch_process sys arguments background =
      if background then
        ⟨[.fork sys.fork_ret, .set_foreground_pid sys.fork_ret,
          .printf ("[Process ID: " ++ toString sys.fork_ret ++ "]\n"),
          .set_foreground_pid (-1)], arguments, .returned⟩
      else
        ⟨[.fork sys.fork_ret, .set_foreground_pid sys.fork_ret, .alarm 10,
          .waitpid sys.fork_ret sys.waitpid_status, .alarm 0, .set_foreground_pid (-1)] ++
          report (sys.waitpid_status.getD sys.status_indeterminate), arguments, .returned⟩ := by
  unfold launch_process
  simp only [h1, h0, if_false]
  cases background <;> simp

/-- The report is empty or one `printf`. -/
theorem report_cases (status : Nat) :
    report status = [] ∨ ∃ text, report status = [.printf text] := by
  unfold report
  split
  · exact Or.inr ⟨_, rfl⟩
  · split
    · exact Or.inr ⟨_, rfl⟩
    · exact Or.inl rfl

/-- A vector with the leftmost operator at index `i > 0` followed by a token, taken apart. -/
theorem split_at_operator (ts : List String) (i : Nat) (op path : String) (hi : 0 < i)
    (hop : ts[i]? = some op) (hpath : ts[i + 1]? = some path) :
    ∃ file pre post, ts = (file :: pre) ++ op :: path :: post ∧ ts.take i = file :: pre ∧
      ts[0]? = some file ∧ ts.drop (i + 1) = path :: post := by
  obtain ⟨h1, h2⟩ := split_at_index ts i op hop
  obtain ⟨h3, -⟩ := split_at_index ts (i + 1) path hpath
  cases hpre : ts.take i with
  | nil => rw [hpre] at h2; simp at h2; omega
  | cons file pre =>
    refine ⟨file, pre, ts.drop (i + 1 + 1), ?_, rfl, ?_, ?_⟩
    · rw [← hpre]
      have h4 : ts.drop (i + 1) = path :: ts.drop (i + 1 + 1) := by
        obtain ⟨hlt, hget⟩ := List.getElem?_eq_some_iff.1 hpath
        rw [← hget, List.getElem_cons_drop]
      rw [← h4]; exact h1
    · have : (ts.take i)[0]? = some file := by rw [hpre]; simp
      rw [List.getElem?_take] at this
      simpa [hi] using this
    · obtain ⟨hlt, hget⟩ := List.getElem?_eq_some_iff.1 hpath
      rw [← hget, List.getElem_cons_drop]

/-- What each process that runs the pipe branch does, from the `fork` of `launch_process`
on: the left child (`pid1 = 0`), the right child (`pid2 = 0`) and the process that forked
them, which waits, returns to `launch_process` and goes on to line 184. -/
theorem launch_child_pipe (sys : Sys) (file0 : String) (rest0 pre post : List String)
    (background : Bool) (hfork : sys.fork_ret = 0)
    (hpre : ∀ t ∈ pre, is_operator t = false)
    (hts : pre ++ "|" :: post = file0 :: rest0) :
    launch_process sys (to_arguments (pre ++ "|" :: post)) background =
      if sys.pid1 = 0 then
        ⟨[.fork 0, .pipe sys.pipefd.1 sys.pipefd.2, .fork sys.pid1,
            .dup2 sys.pipefd.2 STDOUT_FILENO, .close sys.pipefd.1,
            .execvp file0 (pre ++ "|" :: post)] ++
            (if sys.execvp_fails then [.perror "exec failed", .exit EXIT_FAILURE] else []),
          to_arguments (pre ++ "|" :: post),
          if sys.execvp_fails then .exited EXIT_FAILURE else .replaced⟩
      else if sys.pid2 = 0 then
        match post with
        | [] =>
          ⟨[.fork 0, .pipe sys.pipefd.1 sys.pipefd.2, .fork sys.pid1, .fork sys.pid2,
              .dup2 sys.pipefd.1 STDIN_FILENO, .close sys.pipefd.2],
            to_arguments (pre ++ "|" :: post), .undefined⟩
        | file2 :: _ =>
          ⟨[.fork 0, .pipe sys.pipefd.1 sys.pipefd.2, .fork sys.pid1, .fork sys.pid2,
              .dup2 sys.pipefd.1 STDIN_FILENO, .close sys.pipefd.2, .execvp file2 post] ++
              (if sys.execvp_fails then [.perror "exec failed", .exit EXIT_FAILURE] else []),
            to_arguments (pre ++ "|" :: post),
            if sys.execvp_fails then .exited EXIT_FAILURE else .replaced⟩
      else
        ⟨[.fork 0, .pipe sys.pipefd.1 sys.pipefd.2, .fork sys.pid1, .fork sys.pid2,
            .close sys.pipefd.1, .close sys.pipefd.2, .waitpid sys.pid1 none,
            .waitpid sys.pid2 none, .printf ("Executing: " ++ file0 ++ "\n"),
            .execvp file0 (pre ++ "|" :: post)] ++
            (if sys.execvp_fails then [.perror "exec failed", .exit EXIT_FAILURE] else []),
          to_arguments (pre ++ "|" :: post),
          if sys.execvp_fails then .exited EXIT_FAILURE else .replaced⟩ := by
  have hslot0 : slot (to_arguments (pre ++ "|" :: post)) 0 = some file0 := by
    rw [hts, to_arguments_cons, slot_zero_cons]
  have hargv : argv (to_arguments (pre ++ "|" :: post)) = pre ++ "|" :: post :=
    argv_to_arguments _
  have hslot1 : slot (to_arguments (pre ++ "|" :: post)) (pre.length + 1) = post.head? := by
    rw [to_arguments_append, slot_after_strings, to_arguments_cons, slot_succ_cons]
    cases post <;> simp [to_arguments, slot]
  have hdrop : argv ((to_arguments (pre ++ "|" :: post)).drop (pre.length + 1)) = post := by
    rw [to_arguments_append, to_arguments_cons, drop_after_strings, argv_to_arguments]
  have h1 : ((0 : Int) = -1) = False := by simp
  have n1 : (("|" : String) = ">") = False := by simp
  have n2 : (("|" : String) = "<") = False := by simp
  unfold launch_process
  rw [hrp_pipe sys pre post hpre]
  simp only [hfork, h1, if_false, if_true, hrp_loop, n1, n2, hslot0, hargv, hslot1, hdrop]
  by_cases hp1 : sys.pid1 = 0
  · simp only [hp1, if_true]
    cases sys.execvp_fails <;> simp
  · simp only [hp1, if_false]
    by_cases hp2 : sys.pid2 = 0
    · simp only [hp2, if_true]
      cases post with
      | nil => simp
      | cons file2 post2 =>
        simp only [List.head?_cons]
        cases sys.execvp_fails <;> simp
    · simp only [hp2, if_false, hslot0, hargv]
      cases sys.execvp_fails <;> simp

/-! ## The tokenizer (C1, C10) -/

set_option maxRecDepth 100000 in
/-- C10: a line of 256 characters (the shell reads up to 1023) with 128 tokens makes
`tokenize_command` store the token pointers in slots 0 to 127 and the terminating `NULL` in
slot 128, which is outside the `MAX_COMMAND_LINE_ARGS = 128` slots allocated. -/
theorem tokenize_stores_out_of_bounds :
    (many_tokens 128).length = 256 ∧ 256 ≤ MAX_COMMAND_LINE_LEN - 1 ∧
      (127, some "a") ∈ tokenize_stores (many_tokens 128) ∧
      (128, none) ∈ tokenize_stores (many_tokens 128) ∧
      ¬ 128 < MAX_COMMAND_LINE_ARGS := by
  decide

/-! ## Redirection (C2) -/

/-- C2, as amended: for every argument vector whose leftmost operator token is `>`
(respectively `<`) at an index `i > 0`, followed by a path token, the child created by
`launch_process` opens that path write-only, create, truncate, mode 0644 (respectively
read-only). When the `open` succeeds, the child's calls are exactly that `open`, `dup2` of
the descriptor onto standard output (respectively standard input), `close` of the
descriptor, the `Executing:` message, and `execvp` of `arguments[0]` with an argument vector
equal to exactly the tokens before index `i`; no `dup2` targets the other standard stream.
When the `open` fails (returns `-1`), the child's calls are exactly that `open`,
`perror("open failed")` and `exit(1)`: it duplicates no descriptor and executes nothing. -/
theorem launch_process_redirection (sys : Sys) (ts : List String) (i : Nat) (path : String)
    (background : Bool) (hfork : sys.fork_ret = 0) (hi : 0 < i)
    (hleft : ∀ t ∈ ts.take i, is_operator t = false) (hpath : ts[i + 1]? = some path) :
    (ts[i]? = some ">" → ∃ file, ts[0]? = some file ∧
      (sys.open_ret ≠ -1 →
        (launch_process sys (to_arguments ts) background).events =
          [.fork 0, .openFile path [.O_WRONLY, .O_CREAT, .O_TRUNC] (some 0o644) sys.open_ret,
            .dup2 sys.open_ret STDOUT_FILENO, .close sys.open_ret,
            .printf ("Executing: " ++ file ++ "\n"), .execvp file (ts.take i)] ++
            (if sys.execvp_fails then [.perror "exec failed", .exit EXIT_FAILURE] else []) ∧
        (launch_process sys (to_arguments ts) background).ctl =
          (if sys.execvp_fails then .exited EXIT_FAILURE else .replaced) ∧
        ∀ e ∈ (launch_process sys (to_arguments ts) background).events,
          ∀ oldfd, e ≠ .dup2 oldfd STDIN_FILENO) ∧
      (sys.open_ret = -1 →
        (launch_process sys (to_arguments ts) background).events =
          [.fork 0, .openFile path [.O_WRONLY, .O_CREAT, .O_TRUNC] (some 0o644) (-1),
            .perror "open failed", .exit 1] ∧
        (launch_process sys (to_arguments ts) background).ctl = .exited 1 ∧
        ∀ e ∈ (launch_process sys (to_arguments ts) background).events,
          (∀ oldfd newfd, e ≠ .dup2 oldfd newfd) ∧ (∀ f argv, e ≠ .execvp f argv))) ∧
    (ts[i]? = some "<" → ∃ file, ts[0]? = some file ∧
      (sys.open_ret ≠ -1 →
        (launch_process sys (to_arguments ts) background).events =
          [.fork 0, .openFile path [.O_RDONLY] none sys.open_ret,
            .dup2 sys.open_ret STDIN_FILENO, .close sys.open_ret,
            .printf ("Executing: " ++ file ++ "\n"), .execvp file (ts.take i)] ++
            (if sys.execvp_fails then [.perror "exec failed", .exit EXIT_FAILURE] else []) ∧
        (launch_process sys (to_arguments ts) background).ctl =
          (if sys.execvp_fails then .exited EXIT_FAILURE else .replaced) ∧
        ∀ e ∈ (launch_process sys (to_arguments ts) background).events,
          ∀ oldfd, e ≠ .dup2 oldfd STDOUT_FILENO) ∧
      (sys.open_ret = -1 →
        (launch_process sys (to_arguments ts) background).events =
          [.fork 0, .openFile path [.O_RDONLY] none (-1),
            .perror "open failed", .exit 1] ∧
        (launch_process sys (to_arguments ts) background).ctl = .exited 1 ∧
        ∀ e ∈ (launch_process sys (to_arguments ts) background).events,
          (∀ oldfd newfd, e ≠ .dup2 oldfd newfd) ∧ (∀ f argv, e ≠ .execvp f argv))) := by
  constructor
  · intro hop
    obtain ⟨file, pre, post, hts, htake, h0, -⟩ := split_at_operator ts i ">" path hi hop hpath
    refine ⟨file, h0, ?_, ?_⟩
    · intro hopen
      have hpre : ∀ t ∈ file :: pre, is_operator t = false := by rw [← htake]; exact hleft
      have hrun := launch_child_output sys path (file :: pre) post background hfork hpre
      rw [← hts] at hrun
      rw [hrun, if_neg hopen, htake]
      refine ⟨rfl, rfl, ?_⟩
      intro e he oldfd heq
      subst heq
      cases hx : sys.execvp_fails <;> simp [hx, STDIN_FILENO, STDOUT_FILENO] at he
    · intro hopen
      have hpre : ∀ t ∈ file :: pre, is_operator t = false := by rw [← htake]; exact hleft
      have hrun := launch_child_output sys path (file :: pre) post background hfork hpre
      rw [← hts] at hrun
      rw [hrun, if_pos hopen, hopen]
      refine ⟨rfl, rfl, ?_⟩
      intro e he
      refine ⟨fun oldfd newfd heq => ?_, fun f argv heq => ?_⟩ <;> subst heq <;> simp at he
  · intro hop
    obtain ⟨file, pre, post, hts, htake, h0, -⟩ := split_at_operator ts i "<" path hi hop hpath
    refine ⟨file, h0, ?_, ?_⟩
    · intro hopen
      have hpre : ∀ t ∈ file :: pre, is_operator t = false := by rw [← htake]; exact hleft
      have hrun := launch_child_input sys path (file :: pre) post background hfork hpre
      rw [← hts] at hrun
      rw [hrun, if_neg hopen, htake]
      refine ⟨rfl, rfl, ?_⟩
      intro e he oldfd heq
      subst heq
      cases hx : sys.execvp_fails <;> simp [hx, STDIN_FILENO, STDOUT_FILENO] at he
    · intro hopen
      have hpre : ∀ t ∈ file :: pre, is_operator t = false := by rw [← htake]; exact hleft
      have hrun := launch_child_input sys path (file :: pre) post background hfork hpre
      rw [← hts] at hrun
      rw [hrun, if_pos hopen, hopen]
      refine ⟨rfl, rfl, ?_⟩
      intro e he
      refine ⟨fun oldfd newfd heq => ?_, fun f argv heq => ?_⟩ <;> subst heq <;> simp at he

/-- C2, witness: the child for `cmd > out.txt` whose `open` returns descriptor 3, and the
child for `cmd < in.txt` whose `open` fails. -/
theorem launch_process_redirection_witness :
    (sys_child.fork_ret = 0 ∧ sys_open_fails.fork_ret = 0 ∧ 0 < 1 ∧
      (∀ t ∈ ["cmd", ">", "out.txt"].take 1, is_operator t = false) ∧
      ["cmd", ">", "out.txt"][1 + 1]? = some "out.txt" ∧
      (∀ t ∈ ["cmd", "<", "in.txt"].take 1, is_operator t = false) ∧
      ["cmd", "<", "in.txt"][1 + 1]? = some "in.txt") ∧
    (launch_process sys_child (to_arguments ["cmd", ">", "out.txt"]) false).events =
      [.fork 0, .openFile "out.txt" [.O_WRONLY, .O_CREAT, .O_TRUNC] (some 0o644) 3,
        .dup2 3 1, .close 3, .printf "Executing: cmd\n", .execvp "cmd" ["cmd"]] ∧
    (launch_process sys_open_fails (to_arguments ["cmd", "<", "in.txt"]) false).events =
      [.fork 0, .openFile "in.txt" [.O_RDONLY] none (-1), .perror "open failed", .exit 1] := by
  have h := launch_process_redirection sys_child ["cmd", ">", "out.txt"] 1 "out.txt" false rfl
    (by decide) (by decide) rfl
  have h2 := launch_process_redirection sys_open_fails ["cmd", "<", "in.txt"] 1 "in.txt" false
    rfl (by decide) (by decide) rfl
  obtain ⟨file, h0, hok, -⟩ := h.1 rfl
  obtain ⟨file2, -, -, hfail⟩ := h2.2 rfl
  have hfile : file = "cmd" := by simpa using h0.symm
  subst hfile
  exact ⟨⟨rfl, rfl, by decide, by decide, rfl, by decide, rfl⟩,
    (hok (by decide)).1.trans (by decide), (hfail rfl).1⟩

/-- C2, counterexample: for `cmd > out.txt` and for `cmd < in.txt` whose `open` fails the
child reports `open failed` and exits with status 1, nothing is bound and nothing executed;
for `> out.txt` (operator at index 0) the child opens and binds the file, then passes the
null `arguments[0]` to `printf` and no program is executed. -/
theorem launch_process_redirection_counterexample :
    launch_process sys_open_fails (to_arguments ["cmd", ">", "out.txt"]) false =
      ⟨[.fork 0, .openFile "out.txt" [.O_WRONLY, .O_CREAT, .O_TRUNC] (some 0o644) (-1),
          .perror "open failed", .exit 1],
        [some "cmd", none, some "out.txt", none], .exited 1⟩ ∧
    launch_process sys_open_fails (to_arguments ["cmd", "<", "in.txt"]) false =
      ⟨[.fork 0, .openFile "in.txt" [.O_RDONLY] none (-1),
          .perror "open failed", .exit 1],
        [some "cmd", none, some "in.txt", none], .exited 1⟩ ∧
    launch_process sys_child (to_arguments [">", "out.txt"]) false =
      ⟨[.fork 0, .openFile "out.txt" [.O_WRONLY, .O_CREAT, .O_TRUNC] (some 0o644) 3,
          .dup2 3 1, .close 3],
        [none, some "out.txt", none], .undefined⟩ := by
  decide

/-! ## Pipe (C3) -/

/-- C3: for `ls | wc` three processes call `execvp`, not two. The left child executes `ls`
with the whole vector `ls | wc` (line 148 passes `arguments`, in which the `|` slot was never
set to `NULL`), the right child executes `wc` with the right segment, and the process that
forked them, once both `waitpid` calls are made, returns from
`handle_redirection_and_piping` (line 166) into `launch_process`, which executes `ls` with
the whole vector again (line 186). -/
theorem launch_process_pipe_three_programs :
    launch_process sys_child (to_arguments ["ls", "|", "wc"]) false =
      ⟨[.fork 0, .pipe 3 4, .fork 0, .dup2 4 1, .close 3, .execvp "ls" ["ls", "|", "wc"]],
        [some "ls", some "|", some "wc", none], .replaced⟩ ∧
    launch_process sys_right_child (to_arguments ["ls", "|", "wc"]) false =
      ⟨[.fork 0, .pipe 3 4, .fork 101, .fork 0, .dup2 3 0, .close 4, .execvp "wc" ["wc"]],
        [some "ls", some "|", some "wc", none], .replaced⟩ ∧
    launch_process sys_pipe_parent (to_arguments ["ls", "|", "wc"]) false =
      ⟨[.fork 0, .pipe 3 4, .fork 101, .fork 102, .close 3, .close 4, .waitpid 101 none,
          .waitpid 102 none, .printf "Executing: ls\n", .execvp "ls" ["ls", "|", "wc"]],
        [some "ls", some "|", some "wc", none], .replaced⟩ := by
  decide

/-! ## Background marker (C4) -/

theorem count_after_strings (pre : List String) (R : Arguments) :
    count_arguments (pre.map some ++ R) = pre.length + count_arguments R := by
  induction pre with
  | nil => simp
  | cons t pre ih =>
    have hstep : count_arguments (some t :: (pre.map some ++ R)) =
        count_arguments (pre.map some ++ R) + 1 := rfl
    rw [List.map_cons, List.cons_append, hstep, ih, List.length_cons]
    omega

theorem mark_background_nil : mark_background (to_arguments []) = (to_arguments [], false) := by
  decide

theorem mark_background_concat (L : List String) (b : String) :
    mark_background (to_arguments (L ++ [b])) =
      if b = "&" then (L.map some ++ [none, none], true)
      else (to_arguments (L ++ [b]), false) := by
  have harr : to_arguments (L ++ [b]) = L.map some ++ some b :: [none] := by
    simp [to_arguments]
  have hcount : count_arguments (L.map some ++ some b :: [none]) = L.length + 1 := by
    rw [count_after_strings]; rfl
  have hslot : slot (L.map some ++ some b :: [none]) (L.length + 1 - 1) = some b := by
    have := slot_after_strings L (some b :: [none]) 0
    simpa [slot_zero_cons] using this
  unfold mark_background
  rw [harr]
  simp only [hcount, hslot, Option.some.injEq]
  by_cases hb : b = "&"
  · have hlen : L.length + 1 - 1 = L.length := by omega
    simp only [hb, and_true, if_true, hlen, set_after_strings]
    simp
  · simp [hb]

/-- C4: for every token vector, the main loop sets `background` exactly when the last token
is `&`; in that case the vector the dispatch code sees is the original vector without its
last token, otherwise the array is left as the tokenizer returned it; the handlers that are
passed `arguments` receive that array, and `launch_process` receives it with that flag. -/
theorem mark_background_last_token (ts : List String) :
    ((mark_background (to_arguments ts)).2 = true ↔ ts.getLast? = some "&") ∧
    ((mark_background (to_arguments ts)).2 = true →
      argv (mark_background (to_arguments ts)).1 = ts.dropLast) ∧
    ((mark_background (to_arguments ts)).2 = false →
      (mark_background (to_arguments ts)).1 = to_arguments ts ∧
      argv (mark_background (to_arguments ts)).1 = ts) ∧
    (∀ a b, dispatch (to_arguments ts) = .launch_process a b →
      a = (mark_background (to_arguments ts)).1 ∧ b = (mark_background (to_arguments ts)).2) ∧
    (∀ a, (dispatch (to_arguments ts) = .handle_cd a ∨ dispatch (to_arguments ts) = .handle_echo a
        ∨ dispatch (to_arguments ts) = .handle_setenv a) →
      a = (mark_background (to_arguments ts)).1) := by
  refine ⟨?_, ?_, ?_, ?_, ?_⟩
  · rcases List.eq_nil_or_concat ts with rfl | ⟨L, b, rfl⟩
    · simp [mark_background_nil]
    · rw [List.concat_eq_append, mark_background_concat]
      by_cases hb : b = "&" <;> simp [hb]
  · rcases List.eq_nil_or_concat ts with rfl | ⟨L, b, rfl⟩
    · simp [mark_background_nil]
    · rw [List.concat_eq_append, mark_background_concat]
      by_cases hb : b = "&"
      · intro _
        simp only [hb, if_true]
        have := argv_strings L [none]
        simpa using this
      · simp [hb]
  · rcases List.eq_nil_or_concat ts with rfl | ⟨L, b, rfl⟩
    · intro _; exact ⟨by simp [mark_background_nil], by decide⟩
    · rw [List.concat_eq_append, mark_background_concat]
      by_cases hb : b = "&"
      · simp [hb]
      · intro _
        rw [if_neg hb]
        exact ⟨rfl, argv_to_arguments _⟩
  · intro a b h
    cases hs : slot (mark_background (to_arguments ts)).1 0 with
    | none => simp [dispatch, hs] at h
    | some cmd =>
      simp only [dispatch, hs] at h
      split_ifs at h
      cases h
      exact ⟨rfl, rfl⟩
  · intro a h
    cases hs : slot (mark_background (to_arguments ts)).1 0 with
    | none => simp [dispatch, hs] at h
    | some cmd =>
      simp only [dispatch, hs] at h
      rcases h with h | h | h <;> split_ifs at h <;> cases h <;> rfl

/-! ## Launcher, parent side (C5, C6, C7) and the handler (C8) -/

/-- C5: when `launch_process` is called with `background = true` and `fork` returns a child pid
`p > 0`, the parent stores `p`, prints `[Process ID: p]`, stores `-1` and returns: it calls
neither `waitpid` nor `alarm`, and whatever the registry held before, `foreground_pid` is `-1`
at return, a value for which the expiry handler does nothing. -/
theorem launch_process_background (sys : Sys) (arguments : Arguments) (p : Int)
    (hfork : sys.fork_ret = p) (hp : 0 < p) :
    launch_process sys arguments true =
      ⟨[.fork p, .set_foreground_pid p, .printf ("[Process ID: " ++ toString p ++ "]\n"),
        .set_foreground_pid (-1)], arguments, .returned⟩ ∧
    (∀ e ∈ (launch_process sys arguments true).events,
      (∀ pid stored, e ≠ .waitpid pid stored) ∧ (∀ seconds, e ≠ .alarm seconds)) ∧
    (∀ r0 : Registry,
      (r0.run (launch_process sys arguments true).events).foreground_pid = -1 ∧
      (r0.run (launch_process sys arguments true).events).armed = r0.armed) ∧
    sigalrm_handler (-1) = [] := by
  have h1 : sys.fork_ret ≠ -1 := by rw [hfork]; omega
  have h0 : sys.fork_ret ≠ 0 := by rw [hfork]; omega
  have hrun := launch_parent sys arguments true h1 h0
  rw [if_pos rfl, hfork] at hrun
  refine ⟨hrun, ?_, ?_, by decide⟩
  · intro e he
    rw [hrun] at he
    simp only [List.mem_cons, List.mem_singleton, List.not_mem_nil, or_false] at he
    rcases he with rfl | rfl | rfl | rfl <;> simp
  · intro r0
    rw [hrun]
    simp [Registry.run, Registry.step]

/-- C5, witness: the shell launching a background command whose child has pid 100. -/
theorem launch_process_background_witness :
    ((sys_shell 0).fork_ret = 100 ∧ (0 : Int) < 100) ∧
    launch_process (sys_shell 0) (to_arguments ["sleep", "5"]) true =
      ⟨[.fork 100, .set_foreground_pid 100, .printf "[Process ID: 100]\n",
        .set_foreground_pid (-1)], [some "sleep", some "5", none], .returned⟩ :=
  ⟨⟨rfl, by decide⟩,
    (launch_process_background (sys_shell 0) (to_arguments ["sleep", "5"]) 100 rfl
      (by decide)).1.trans (by decide)⟩

/-- C6: when `launch_process` is called with `background = false` and `fork` returns a child
pid `p > 0`, the parent's calls are, in this order: store `p` in `foreground_pid`, `alarm(10)`,
`waitpid` on `p`, `alarm(0)`, store `-1`, then the report. Hence after every initial part of
these calls at which a countdown is pending, `foreground_pid` is `p`, and the expiry handler
run at that point would send `SIGKILL` to `p`; at return no countdown is pending. -/
theorem launch_process_foreground_order (sys : Sys) (arguments : Arguments) (p : Int)
    (hfork : sys.fork_ret = p) (hp : 0 < p) :
    (launch_process sys arguments false).events =
      [.fork p, .set_foreground_pid p, .alarm 10, .waitpid p sys.waitpid_status, .alarm 0,
        .set_foreground_pid (-1)] ++ report (sys.waitpid_status.getD sys.status_indeterminate) ∧
    (∀ (v0 : Int) (n : Nat),
      ((Registry.mk v0 false).run ((launch_process sys arguments false).events.take n)).armed
          = true →
        ((Registry.mk v0 false).run
          ((launch_process sys arguments false).events.take n)).foreground_pid = p ∧
        sigalrm_handler ((Registry.mk v0 false).run
          ((launch_process sys arguments false).events.take n)).foreground_pid =
          [.printf ("\nProcess timed out. Terminating process " ++ toString p ++ ".\n"),
            .kill p SIGKILL]) ∧
    (∀ v0 : Int,
      (Registry.mk v0 false).run (launch_process sys arguments false).events =
        Registry.mk (-1) false) := by
  have h1 : sys.fork_ret ≠ -1 := by rw [hfork]; omega
  have h0 : sys.fork_ret ≠ 0 := by rw [hfork]; omega
  have hrun := launch_parent sys arguments false h1 h0
  simp only [Bool.false_eq_true, if_false, hfork] at hrun
  have hhandler : sigalrm_handler p =
      [.printf ("\nProcess timed out. Terminating process " ++ toString p ++ ".\n"),
        .kill p SIGKILL] := by
    simp [sigalrm_handler, hp]
  refine ⟨by rw [hrun], ?_, ?_⟩
  · intro v0 n
    rw [hrun]
    rcases report_cases (sys.waitpid_status.getD sys.status_indeterminate) with hr | ⟨text, hr⟩ <;>
      rw [hr] <;>
      rcases n with _ | _ | _ | _ | _ | _ | _ | _ | n <;>
      simp [Registry.run, Registry.step, hhandler]
  · intro v0
    rw [hrun]
    rcases report_cases (sys.waitpid_status.getD sys.status_indeterminate) with hr | ⟨text, hr⟩ <;>
      rw [hr] <;> simp [Registry.run, Registry.step]

/-- C6, witness: the shell launching foreground child 100 that exits with code 0; after the
first three calls (`fork`, the store, `alarm(10)`) the countdown is pending and the registry
holds 100. -/
theorem launch_process_foreground_order_witness :
    ((sys_shell (status_exited 0)).fork_ret = 100 ∧ (0 : Int) < 100) ∧
    (launch_process (sys_shell (status_exited 0)) (to_arguments ["ls"]) false).events =
      [.fork 100, .set_foreground_pid 100, .alarm 10, .waitpid 100 (some 0), .alarm 0,
        .set_foreground_pid (-1), .printf "Process exited with status 0\n"] ∧
    (Registry.mk 0 false).run
      ((launch_process (sys_shell (status_exited 0)) (to_arguments ["ls"]) false).events.take 3)
      = Registry.mk 100 true :=
  ⟨⟨rfl, by decide⟩,
    (launch_process_foreground_order (sys_shell (status_exited 0)) (to_arguments ["ls"]) 100 rfl
      (by decide)).1.trans (by decide),
    by decide⟩

/-- C7: for a foreground child still running when the countdown expires, the handler does send
`SIGKILL` to the registered child, but it was installed with `sa_flags = 0` (no
`SA_RESTART`), so the `waitpid` it interrupts stores nothing and `launch_process` prints the
report computed from the indeterminate value of `status`: a normal exit with status 0 when
that value is 0, a kill by signal 11 when it is 11. The report for a child killed by signal 9
is printed only when `waitpid` stores that status. -/
theorem launch_process_timeout_report :
    sigalrm_handler 100 =
      [.printf "\nProcess timed out. Terminating process 100.\n", .kill 100 SIGKILL] ∧
    sa_alrm_flags &&& SA_RESTART = 0 ∧
    (launch_process (sys_timeout 0) (to_arguments ["sleep", "20"]) false).events =
      [.fork 100, .set_foreground_pid 100, .alarm 10, .waitpid 100 none, .alarm 0,
        .set_foreground_pid (-1), .printf "Process exited with status 0\n"] ∧
    (launch_process (sys_timeout 11) (to_arguments ["sleep", "20"]) false).events =
      [.fork 100, .set_foreground_pid 100, .alarm 10, .waitpid 100 none, .alarm 0,
        .set_foreground_pid (-1), .printf "Process was killed by signal 11\n"] ∧
    (launch_process (sys_shell (status_signaled SIGKILL)) (to_arguments ["sleep", "20"])
        false).events =
      [.fork 100, .set_foreground_pid 100, .alarm 10, .waitpid 100 (some 9), .alarm 0,
        .set_foreground_pid (-1), .printf "Process was killed by signal 9\n"] := by
  decide

/-- C8: whatever value `v` the registry `foreground_pid` holds when `sigalrm_handler` runs: if
`v > 0` the handler prints its message and sends `SIGKILL` (signal 9) to `v`; if `v <= 0`,
which covers the initial value 0 and the cleared value -1, it makes no call at all; every
`kill` it issues has pid `v > 0` and signal `SIGKILL`, so never pid 0 or -1. -/
theorem sigalrm_handler_kills_registered (v : Int) :
    (0 < v → sigalrm_handler v =
      [.printf ("\nProcess timed out. Terminating process " ++ toString v ++ ".\n"),
        .kill v SIGKILL]) ∧
    (v ≤ 0 → sigalrm_handler v = []) ∧
    (∀ pid sig, .kill pid sig ∈ sigalrm_handler v →
      pid = v ∧ 0 < v ∧ sig = SIGKILL ∧ pid ≠ 0 ∧ pid ≠ -1) ∧
    SIGKILL = 9 ∧
    sigalrm_handler foreground_pid_initial = [] ∧ sigalrm_handler (-1) = [] := by
  refine ⟨?_, ?_, ?_, rfl, by decide, by decide⟩
  · intro hv
    simp [sigalrm_handler, hv]
  · intro hv
    have : ¬ v > 0 := by omega
    simp [sigalrm_handler, this]
  · intro pid sig hmem
    by_cases hv : v > 0
    · simp only [sigalrm_handler, hv, if_true, List.mem_cons, List.mem_singleton,
        List.not_mem_nil, or_false] at hmem
      rcases hmem with h | h
      · cases h
      · cases h
        exact ⟨rfl, hv, rfl, by omega, by omega⟩
    · simp [sigalrm_handler, hv] at hmem

/-! ## One operator per line (C9) -/

/-- In a process that is not the child (`fork` failed, or the parent) `launch_process` opens
no file, creates no pipe, duplicates no descriptor and executes nothing. -/
theorem launch_not_child (sys : Sys) (arguments : Arguments) (background : Bool)
    (h0 : sys.fork_ret ≠ 0) :
    ∀ e ∈ (launch_process sys arguments background).events,
      (∀ path flags mode ret, e ≠ .openFile path flags mode ret) ∧
      (∀ rd wr, e ≠ .pipe rd wr) ∧ (∀ oldfd newfd, e ≠ .dup2 oldfd newfd) ∧
      (∀ file argv, e ≠ .execvp file argv) := by
  intro e he
  by_cases h1 : sys.fork_ret = -1
  · simp only [launch_process, h1, if_true, List.mem_cons, List.mem_singleton,
      List.not_mem_nil, or_false] at he
    rcases he with rfl | rfl <;> simp
  · rw [launch_parent sys arguments background h1 h0] at he
    rcases report_cases (sys.waitpid_status.getD sys.status_indeterminate) with hr | ⟨text, hr⟩ <;>
      rw [hr] at he <;> cases background <;>
      simp only [Bool.false_eq_true, if_false, if_true, List.mem_cons, List.mem_singleton,
        List.not_mem_nil, or_false, List.append_nil, List.cons_append, List.nil_append] at he <;>
      rcases he with rfl | rfl | rfl | rfl | rfl | rfl | rfl <;> simp

/-- Every process that runs `launch_process` on a vector whose leftmost operator is `|` opens
no file and duplicates only the two ends of the pipe. -/
theorem launch_pipe_descriptors (sys : Sys) (pre post : List String) (background : Bool)
    (hpre : ∀ t ∈ pre, is_operator t = false) :
    ∀ e ∈ (launch_process sys (to_arguments (pre ++ "|" :: post)) background).events,
      (∀ path flags mode ret, e ≠ .openFile path flags mode ret) ∧
      (∀ oldfd newfd, e = .dup2 oldfd newfd → oldfd = sys.pipefd.1 ∨ oldfd = sys.pipefd.2) := by
  intro e he
  by_cases h0 : sys.fork_ret = 0
  · obtain ⟨file0, rest0, hts⟩ : ∃ file0 rest0, pre ++ "|" :: post = file0 :: rest0 := by
      cases pre with
      | nil => exact ⟨_, _, rfl⟩
      | cons a pre2 => exact ⟨_, _, rfl⟩
    rw [launch_child_pipe sys file0 rest0 pre post background h0 hpre hts] at he
    by_cases hp1 : sys.pid1 = 0
    · rw [if_pos hp1] at he
      refine ⟨fun path flags mode ret h => ?_, fun oldfd newfd h => ?_⟩ <;> subst h <;>
        cases hx : sys.execvp_fails <;> simp [hx] at he
      all_goals exact Or.inr he.1
    · rw [if_neg hp1] at he
      by_cases hp2 : sys.pid2 = 0
      · rw [if_pos hp2] at he
        cases post with
        | nil =>
          refine ⟨fun path flags mode ret h => ?_, fun oldfd newfd h => ?_⟩ <;> subst h <;>
            simp at he
          exact Or.inl he.1
        | cons file2 post2 =>
          refine ⟨fun path flags mode ret h => ?_, fun oldfd newfd h => ?_⟩ <;> subst h <;>
            cases hx : sys.execvp_fails <;> simp [hx] at he
          all_goals exact Or.inl he.1
      · rw [if_neg hp2] at he
        refine ⟨fun path flags mode ret h => ?_, fun oldfd newfd h => ?_⟩ <;> subst h <;>
          cases hx : sys.execvp_fails <;> simp [hx] at he
  · obtain ⟨h1, -, h3, -⟩ := launch_not_child sys _ background h0 e he
    exact ⟨h1, fun oldfd newfd h => absurd h (h3 oldfd newfd)⟩

/-- Every process that runs `launch_process` on a vector whose leftmost operator is `>`
followed by a path creates no pipe, opens at most that path, and passes to `execvp` only the
tokens before the operator. -/
theorem launch_output_only (sys : Sys) (path : String) (pre post : List String)
    (background : Bool) (hpre : ∀ t ∈ pre, is_operator t = false) :
    ∀ e ∈ (launch_process sys (to_arguments (pre ++ ">" :: path :: post)) background).events,
      (∀ rd wr, e ≠ .pipe rd wr) ∧
      (∀ p flags mode ret, e = .openFile p flags mode ret → p = path) ∧
      (∀ file argv, e = .execvp file argv → argv = pre) := by
  intro e he
  by_cases h0 : sys.fork_ret = 0
  · rw [launch_child_output sys path pre post background h0 hpre] at he
    by_cases hopen : sys.open_ret = -1
    · rw [if_pos hopen] at he
      refine ⟨fun rd wr h => ?_, fun p flags mode ret h => ?_, fun file argv h => ?_⟩ <;>
        subst h <;> simp at he
      exact he.1
    · rw [if_neg hopen] at he
      cases pre with
      | nil =>
        refine ⟨fun rd wr h => ?_, fun p flags mode ret h => ?_, fun file argv h => ?_⟩ <;>
          subst h <;> simp at he
        exact he.1
      | cons file2 pre2 =>
        refine ⟨fun rd wr h => ?_, fun p flags mode ret h => ?_, fun file argv h => ?_⟩ <;>
          subst h <;> cases hx : sys.execvp_fails <;> simp [hx] at he
        · exact he.1
        · exact he.1
        · exact he.2
        · exact he.2
  · obtain ⟨h1, h2, -, h4⟩ := launch_not_child sys _ background h0 e he
    exact ⟨h2, fun p f m r h => absurd h (h1 p f m r), fun file argv h => absurd h (h4 file argv)⟩

/-- Every process that runs `launch_process` on a vector whose leftmost operator is `<`
followed by a path creates no pipe, opens at most that path, and passes to `execvp` only the
tokens before the operator. -/
theorem launch_input_only (sys : Sys) (path : String) (pre post : List String)
    (background : Bool) (hpre : ∀ t ∈ pre, is_operator t = false) :
    ∀ e ∈ (launch_process sys (to_arguments (pre ++ "<" :: path :: post)) background).events,
      (∀ rd wr, e ≠ .pipe rd wr) ∧
      (∀ p flags mode ret, e = .openFile p flags mode ret → p = path) ∧
      (∀ file argv, e = .execvp file argv → argv = pre) := by
  intro e he
  by_cases h0 : sys.fork_ret = 0
  · rw [launch_child_input sys path pre post background h0 hpre] at he
    by_cases hopen : sys.open_ret = -1
    · rw [if_pos hopen] at he
      refine ⟨fun rd wr h => ?_, fun p flags mode ret h => ?_, fun file argv h => ?_⟩ <;>
        subst h <;> simp at he
      exact he.1
    · rw [if_neg hopen] at he
      cases pre with
      | nil =>
        refine ⟨fun rd wr h => ?_, fun p flags mode ret h => ?_, fun file argv h => ?_⟩ <;>
          subst h <;> simp at he
        exact he.1
      | cons file2 pre2 =>
        refine ⟨fun rd wr h => ?_, fun p flags mode ret h => ?_, fun file argv h => ?_⟩ <;>
          subst h <;> cases hx : sys.execvp_fails <;> simp [hx] at he
        · exact he.1
        · exact he.1
        · exact he.2
        · exact he.2
  · obtain ⟨h1, h2, -, h4⟩ := launch_not_child sys _ background h0 e he
    exact ⟨h2, fun p f m r h => absurd h (h1 p f m r), fun file argv h => absurd h (h4 file argv)⟩

/-- A vector taken apart at an index `i` that holds a token, when a later index `j` holds a
token too. -/
theorem split_before_later (ts : List String) (i j : Nat) (op later : String) (hij : i < j)
    (hop : ts[i]? = some op) (hlater : ts[j]? = some later) :
    ∃ next post, ts = ts.take i ++ op :: next :: post ∧ ts[i + 1]? = some next ∧
      ts.drop (i + 1) = next :: post ∧ later ∈ ts.drop (i + 1) := by
  obtain ⟨hj, hget⟩ := List.getElem?_eq_some_iff.1 hlater
  have hi1 : i + 1 < ts.length := by omega
  have hdrop : ts.drop (i + 1) = ts[i + 1] :: ts.drop (i + 1 + 1) :=
    (List.getElem_cons_drop ts (i + 1) hi1).symm
  refine ⟨ts[i + 1], ts.drop (i + 1 + 1), ?_, ?_, hdrop, ?_⟩
  · rw [← hdrop]; exact (split_at_index ts i op hop).1
  · exact List.getElem?_eq_getElem hi1
  · have h2 : (ts.drop (i + 1))[j - (i + 1)]? = some later := by
      rw [List.getElem?_drop, show i + 1 + (j - (i + 1)) = j by omega]; exact hlater
    exact List.getElem?_mem h2

/-- C9, as amended: for every argument vector that holds a pipe token and a redirection token,
one at index `i` with no operator token before it and the other at a later index `j`, only the
token at `i` causes a pipe or descriptor action, in every process that runs
`launch_process`. When the leftmost is `|`, no file is opened, only the pipe's ends are
duplicated, and the right child executes `arguments[i+1]` with the tokens after index `i`,
among them the later redirection token as a literal argument. When the leftmost is `>` or
`<`, no pipe is created, only the token after the operator is opened, and every argument
vector passed to `execvp` is exactly the tokens before index `i`: the later `|` is in no
executed argument vector. -/
theorem leftmost_operator_only (sys : Sys) (ts : List String) (i j : Nat) (background : Bool)
    (hleft : ∀ t ∈ ts.take i, is_operator t = false) (hij : i < j) :
    (ts[i]? = some "|" → (ts[j]? = some ">" ∨ ts[j]? = some "<") →
      (∀ e ∈ (launch_process sys (to_arguments ts) background).events,
        (∀ path flags mode ret, e ≠ .openFile path flags mode ret) ∧
        (∀ oldfd newfd, e = .dup2 oldfd newfd →
          oldfd = sys.pipefd.1 ∨ oldfd = sys.pipefd.2)) ∧
      (sys.fork_ret = 0 → sys.pid1 ≠ 0 → sys.pid2 = 0 →
        ∃ file later, ts[i + 1]? = some file ∧ ts[j]? = some later ∧
          later ∈ ts.drop (i + 1) ∧
          .execvp file (ts.drop (i + 1)) ∈
            (launch_process sys (to_arguments ts) background).events)) ∧
    ((ts[i]? = some ">" ∨ ts[i]? = some "<") → ts[j]? = some "|" →
      ∀ e ∈ (launch_process sys (to_arguments ts) background).events,
        (∀ rd wr, e ≠ .pipe rd wr) ∧
        (∀ path flags mode ret, e = .openFile path flags mode ret → ts[i + 1]? = some path) ∧
        (∀ file argv, e = .execvp file argv → argv = ts.take i ∧ "|" ∉ argv)) := by
  constructor
  · intro hop hlater
    obtain ⟨later, hlater2⟩ : ∃ later, ts[j]? = some later := by
      rcases hlater with h | h <;> exact ⟨_, h⟩
    obtain ⟨next, post, hts, hnext, hdrop, hmem⟩ :=
      split_before_later ts i j "|" later hij hop hlater2
    constructor
    · have := launch_pipe_descriptors sys (ts.take i) (next :: post) background hleft
      rw [← hts] at this
      exact this
    · intro h0 hp1 hp2
      refine ⟨next, later, hnext, hlater2, hmem, ?_⟩
      obtain ⟨file0, rest0, hts0⟩ :
          ∃ file0 rest0, ts.take i ++ "|" :: next :: post = file0 :: rest0 := by
        cases ts.take i with
        | nil => exact ⟨_, _, rfl⟩
        | cons a pre2 => exact ⟨_, _, rfl⟩
      have hrun := launch_child_pipe sys file0 rest0 (ts.take i) (next :: post) background h0
        hleft hts0
      rw [← hts, if_neg hp1, if_pos hp2] at hrun
      rw [hrun, hdrop]
      cases sys.execvp_fails <;> simp
  · intro hop hlater
    have hpipe : "|" ∉ ts.take i := by
      intro hmem
      have := hleft "|" hmem
      revert this
      decide
    rcases hop with hop | hop
    · obtain ⟨next, post, hts, hnext, -, -⟩ := split_before_later ts i j ">" "|" hij hop hlater
      intro e he
      have := launch_output_only sys next (ts.take i) post background hleft
      rw [← hts] at this
      obtain ⟨h1, h2, h3⟩ := this e he
      refine ⟨h1, ?_, ?_⟩
      · intro path flags mode ret h
        rw [h2 path flags mode ret h]; exact hnext
      · intro file argv h
        rw [h3 file argv h]; exact ⟨rfl, hpipe⟩
    · obtain ⟨next, post, hts, hnext, -, -⟩ := split_before_later ts i j "<" "|" hij hop hlater
      intro e he
      have := launch_input_only sys next (ts.take i) post background hleft
      rw [← hts] at this
      obtain ⟨h1, h2, h3⟩ := this e he
      refine ⟨h1, ?_, ?_⟩
      · intro path flags mode ret h
        rw [h2 path flags mode ret h]; exact hnext
      · intro file argv h
        rw [h3 file argv h]; exact ⟨rfl, hpipe⟩

/-- C9, witness: in `a | b > f` the right child executes `b` with the vector `b > f`; in
`a > f | b` the only `execvp` of the child has the vector `a`. -/
theorem leftmost_operator_only_witness :
    ((∀ t ∈ ["a", "|", "b", ">", "f"].take 1, is_operator t = false) ∧ 1 < 3 ∧
      (∀ t ∈ ["a", ">", "f", "|", "b"].take 1, is_operator t = false)) ∧
    .execvp "b" ["b", ">", "f"] ∈
      (launch_process sys_right_child (to_arguments ["a", "|", "b", ">", "f"]) false).events ∧
    (∀ e ∈ (launch_process sys_child (to_arguments ["a", ">", "f", "|", "b"]) false).events,
      ∀ file argv, e = .execvp file argv → argv = ["a"] ∧ "|" ∉ argv) := by
  refine ⟨⟨by decide, by decide, by decide⟩, ?_, ?_⟩
  · obtain ⟨file, later, h1, -, -, h4⟩ :=
      ((leftmost_operator_only sys_right_child ["a", "|", "b", ">", "f"] 1 3 false (by decide)
        (by decide)).1 rfl (Or.inl rfl)).2 rfl (by decide) rfl
    have hfile : file = "b" := by simpa using h1.symm
    subst hfile
    exact h4
  · intro e he file argv h
    exact ((leftmost_operator_only sys_child ["a", ">", "f", "|", "b"] 1 3 false (by decide)
      (by decide)).2 (Or.inl rfl) rfl e he).2.2 file argv h

/-- C9, counterexample: for `a > f | b` the child opens `f`, binds it to standard output
and executes `a` with the one-element vector `a`; its parent, the shell, executes nothing. The
later `|` is passed to no command. -/
theorem leftmost_operator_counterexample :
    launch_process sys_child (to_arguments ["a", ">", "f", "|", "b"]) false =
      ⟨[.fork 0, .openFile "f" [.O_WRONLY, .O_CREAT, .O_TRUNC] (some 0o644) 3, .dup2 3 1,
          .close 3, .printf "Executing: a\n", .execvp "a" ["a"]],
        [some "a", none, some "f", some "|", some "b", none], .replaced⟩ ∧
    (launch_process (sys_shell (status_exited 0)) (to_arguments ["a", ">", "f", "|", "b"])
        false).events =
      [.fork 100, .set_foreground_pid 100, .alarm 10, .waitpid 100 (some 0), .alarm 0,
        .set_foreground_pid (-1), .printf "Process exited with status 0\n"] := by
  decide

end Shell
